import Mathlib

/-!
Shallow embedding of `psx_manual_dashboard.py`: the portfolio loader
(`load_portfolio_from_excel`), the per-holding valuation performed inside
`main`, and the sector aggregation (`compute_sector_summary`).  Prices and
quantities are rationals; a pandas `NaN` cell is modelled as `Option.none`;
the `ValueError` raised by the loader is modelled as `Except.error`.
-/

namespace PSX

/-- The whitespace class of Python's default `str.strip()`. -/
def pyWhitespace (c : Char) : Bool :=
  c == ' ' || c == '\t' || c == '\n' || c == '\r' || c == '\x0b' || c == '\x0c'

/-- Python's `str.strip()`: drop leading and trailing whitespace. -/
def pyStrip (s : String) : String :=
  String.mk (((s.toList.dropWhile pyWhitespace).reverse.dropWhile pyWhitespace).reverse)

/-- Python's `str.upper()` on the ASCII range. -/
def pyUpper (s : String) : String :=
  String.mk (s.toList.map Char.toUpper)

/-- One raw row of the `My_Stocks` sheet.  Numeric cells carry the result of
`pd.to_numeric(..., errors="coerce")`: `none` models the `NaN` produced by an
unparseable cell.  Text cells carry the `astype(str)` value of the cell. -/
structure RawRow where
  symbol : String
  quantity : Option ℚ
  buyPrice : Option ℚ
  sector : String
deriving Repr, DecidableEq

/-- The uploaded sheet: its header strings plus its data rows. -/
structure Sheet where
  columns : List String
  rows : List RawRow
deriving Repr, DecidableEq

/-- One holding after the cleanup in `load_portfolio_from_excel`. -/
structure Holding where
  symbol : String
  quantity : ℚ
  buyPrice : ℚ
  sector : String
deriving Repr, DecidableEq

/-- The required columns checked at source line 206. -/
def requiredCols : List String := ["Symbol", "Quantity", "Buy Price"]

/-- Cleanup of one data row (source lines 214-217): symbol stripped and
upper-cased, `Quantity` and `Buy Price` coerced with `NaN` filled by `0`,
and the sector cell (the literal `"Unknown"` when no `Sector` column exists)
stripped. -/
def loadRow (hasSector : Bool) (r : RawRow) : Holding :=
  { symbol := pyUpper (pyStrip r.symbol)
    quantity := r.quantity.getD 0
    buyPrice := r.buyPrice.getD 0
    sector := pyStrip (if hasSector then r.sector else "Unknown") }

/-- `load_portfolio_from_excel` (source lines 202-218): strips the header
strings, raises `ValueError` when a required column is missing among the
stripped headers, defaults the `Sector` column to `"Unknown"`, and cleans
every row. -/
def load_portfolio_from_excel (sheet : Sheet) : Except String (List Holding) :=
  if (requiredCols.filter (fun c => !((sheet.columns.map pyStrip).contains c))).isEmpty then
    Except.ok (sheet.rows.map (loadRow ((sheet.columns.map pyStrip).contains "Sector")))
  else
    Except.error ("Missing required columns in My_Stocks sheet: " ++
      String.intercalate ", "
        (requiredCols.filter (fun c => !((sheet.columns.map pyStrip).contains c))))

/-- The column `portfolio_df["Symbol"].map(live_prices)` (source line 294):
`none` models the `NaN` of a symbol absent from the fetched price dict. -/
def mapped_prices (live : String → Option ℚ) (hs : List Holding) : List (Option ℚ) :=
  hs.map (fun h => live h.symbol)

/-- Symbols whose mapped price is `NaN` (source line 297). -/
def missing_prices (live : String → Option ℚ) (hs : List Holding) : List String :=
  (hs.filter (fun h => (live h.symbol).isNone)).map Holding.symbol

/-- The stored `current_price` column after the conditional `fillna(0.0)`
(source lines 294-304): when at least one price is missing the whole column
is filled with `0.0` at the `NaN` spots, otherwise it is left as mapped. -/
def current_price_column (live : String → Option ℚ) (hs : List Holding) : List (Option ℚ) :=
  if (missing_prices live hs).isEmpty then
    mapped_prices live hs
  else
    (mapped_prices live hs).map (fun o => some (o.getD 0))

/-- One row of `portfolio_df` after source lines 294-313: the stored
`current_price` column (`Option`-typed: `none` would be a surviving `NaN`)
plus the derived metric columns. -/
structure AnnotatedHolding where
  symbol : String
  quantity : ℚ
  buyPrice : ℚ
  sector : String
  current_price : Option ℚ
  cost : ℚ
  market_value : ℚ
  pnl : ℚ
  pnl_pct : ℚ
deriving Repr, DecidableEq

/-- Source lines 306-313 applied to one row whose stored current price is
`cp`.  The arithmetic reads the filled column, which is `NaN`-free (see
`current_price_column_eq`), so `getD 0` only names the value inside `some`. -/
def annotateRow (h : Holding) (cp : Option ℚ) : AnnotatedHolding :=
  let cost := h.quantity * h.buyPrice
  let mv := h.quantity * cp.getD 0
  let pnl := mv - cost
  { symbol := h.symbol, quantity := h.quantity, buyPrice := h.buyPrice,
    sector := h.sector, current_price := cp,
    cost := cost, market_value := mv, pnl := pnl,
    pnl_pct := if cost ≠ 0 then pnl / cost * 100 else 0 }

/-- The valuation part of `main` (source lines 294-313): map the live
prices, conditionally fill the column, then derive the metric columns. -/
def main_annotate (live : String → Option ℚ) (hs : List Holding) : List AnnotatedHolding :=
  (hs.zip (current_price_column live hs)).map (fun p => annotateRow p.1 p.2)

/-- Source line 315. -/
def total_cost (pf : List AnnotatedHolding) : ℚ := (pf.map AnnotatedHolding.cost).sum

/-- Source line 316. -/
def total_value (pf : List AnnotatedHolding) : ℚ := (pf.map AnnotatedHolding.market_value).sum

/-- Source line 317. -/
def total_pnl (pf : List AnnotatedHolding) : ℚ := (pf.map AnnotatedHolding.pnl).sum

/-- Source line 318; Python float truthiness makes `if total_cost` the test
`total_cost ≠ 0` (no `NaN` can reach it after the fill). -/
def total_pnl_pct (pf : List AnnotatedHolding) : ℚ :=
  if total_cost pf ≠ 0 then total_pnl pf / total_cost pf * 100 else 0

/-- One row of the `Sector_Summary` table. -/
structure SectorRow where
  sector : String
  cost : ℚ
  market_value : ℚ
  pnl : ℚ
  pnl_pct : ℚ
deriving Repr, DecidableEq

/-- The distinct sector keys in the ascending order that
`groupby("Sector")` (with its default `sort=True`) emits. -/
def sector_keys (pf : List AnnotatedHolding) : List String :=
  List.insertionSort (· ≤ ·) (pf.map AnnotatedHolding.sector).dedup

/-- The holdings of sector `s`: one `groupby` group. -/
def sector_group (pf : List AnnotatedHolding) (s : String) : List AnnotatedHolding :=
  pf.filter (fun a => a.sector == s)

/-- `compute_sector_summary` (source lines 147-156): sum `cost`,
`market_value` and `pnl` over each sector group, then recompute `pnl_pct`
from the grouped sums with the same zero-cost policy. -/
def compute_sector_summary (pf : List AnnotatedHolding) : List SectorRow :=
  (sector_keys pf).map (fun s =>
    let grp := sector_group pf s
    let cost := (grp.map AnnotatedHolding.cost).sum
    let mv := (grp.map AnnotatedHolding.market_value).sum
    let pnl := (grp.map AnnotatedHolding.pnl).sum
    { sector := s, cost := cost, market_value := mv, pnl := pnl,
      pnl_pct := if cost ≠ 0 then pnl / cost * 100 else 0 })

/-- Modelled from the spec: the header normalization of spec §4.1
(case-folding plus removal of spaces and underscores).  The source has no
such function — its header handling is `c.strip()` only — so this definition
exists solely to compare the spec's resolution rule with the code's. -/
def spec_normalize (s : String) : String :=
  String.mk ((s.toList.filter (fun c => !(c == ' ' || c == '_'))).map Char.toLower)

example : (load_portfolio_from_excel
    ⟨["Symbol", "Quantity", "Buy Price", "Sector"],
     [⟨" efert ", some 100, some (181/2), "Fertilizer"⟩]⟩).toOption =
    some [⟨"EFERT", 100, 181/2, "Fertilizer"⟩] := by rfl

example : (load_portfolio_from_excel ⟨["symbol", "Quantity", "Buy Price"], []⟩).isOk = false := by
  decide

/-! Helper lemmas shared by the claim theorems. -/

theorem missing_isEmpty_iff (sheet : Sheet) :
    (requiredCols.filter
        (fun c => !((sheet.columns.map pyStrip).contains c))).isEmpty = true ↔
      ∀ c ∈ requiredCols, c ∈ sheet.columns.map pyStrip := by
  simp [List.isEmpty_iff, List.filter_eq_nil_iff]

theorem load_isOk_iff (sheet : Sheet) :
    (load_portfolio_from_excel sheet).isOk = true ↔
      ∀ c ∈ requiredCols, c ∈ sheet.columns.map pyStrip := by
  rw [← missing_isEmpty_iff]
  unfold load_portfolio_from_excel
  split
  · next h => simpa [Except.isOk, Except.toBool] using h
  · next h => simpa [Except.isOk, Except.toBool] using h

theorem load_ok_eq (sheet : Sheet) (hs : List Holding)
    (hok : load_portfolio_from_excel sheet = Except.ok hs) :
    hs = sheet.rows.map (loadRow ((sheet.columns.map pyStrip).contains "Sector")) := by
  unfold load_portfolio_from_excel at hok
  split at hok
  · exact (Except.ok.inj hok).symm
  · exact absurd hok (by simp)

theorem load_error_iff (sheet : Sheet) :
    (∃ e, load_portfolio_from_excel sheet = Except.error e) ↔
      ¬ (load_portfolio_from_excel sheet).isOk = true := by
  cases hval : load_portfolio_from_excel sheet <;>
    simp [Except.isOk, Except.toBool, hval]

theorem load_ok_exists_iff (sheet : Sheet) :
    (∃ hs, load_portfolio_from_excel sheet = Except.ok hs) ↔
      (load_portfolio_from_excel sheet).isOk = true := by
  cases hval : load_portfolio_from_excel sheet <;>
    simp [Except.isOk, Except.toBool, hval]

theorem zip_map_self {α β : Type} (f : α → β) :
    ∀ l : List α, l.zip (l.map f) = l.map (fun a => (a, f a))
  | [] => rfl
  | a :: l => by simp [zip_map_self f l]

theorem current_price_column_eq (live : String → Option ℚ) (hs : List Holding) :
    current_price_column live hs = hs.map (fun h => some ((live h.symbol).getD 0)) := by
  unfold current_price_column
  by_cases h : (missing_prices live hs).isEmpty
  · simp only [h, if_true]
    unfold mapped_prices
    apply List.map_congr_left
    intro x hx
    simp only [List.isEmpty_iff, missing_prices, List.map_eq_nil_iff,
      List.filter_eq_nil_iff] at h
    have := h x hx
    cases hcase : live x.symbol with
    | none => exact absurd (by simp [hcase]) this
    | some v => simp
  · simp only [h, if_false]
    simp [mapped_prices, List.map_map, Function.comp]

theorem main_annotate_eq (live : String → Option ℚ) (hs : List Holding) :
    main_annotate live hs = hs.map (fun h => annotateRow h (some ((live h.symbol).getD 0))) := by
  unfold main_annotate
  rw [current_price_column_eq, zip_map_self, List.map_map]
  rfl

theorem missing_prices_nil_iff (live : String → Option ℚ) (hs : List Holding) :
    missing_prices live hs = [] ↔ ∀ h ∈ hs, live h.symbol ≠ none := by
  unfold missing_prices
  simp only [List.map_eq_nil_iff, List.filter_eq_nil_iff]
  constructor
  · intro h x hx
    have := h x hx
    simpa [Option.isNone_iff_eq_none] using this
  · intro h x hx
    simpa [Option.isNone_iff_eq_none] using h x hx

theorem sum_fiberwise {α : Type} (key : α → String) (f : α → ℚ) :
    ∀ (l : List α) (ks : List String), ks.Nodup → (∀ x ∈ l, key x ∈ ks) →
      (ks.map (fun s => ((l.filter (fun x => key x == s)).map f).sum)).sum = (l.map f).sum := by
  intro l
  induction l with
  | nil => intro ks _ _; simp
  | cons x l ih =>
    intro ks hnd hcov
    have hx : key x ∈ ks := hcov x (List.mem_cons_self x l)
    have hcov' : ∀ y ∈ l, key y ∈ ks := fun y hy => hcov y (List.mem_cons_of_mem x hy)
    have hstep : (ks.map (fun s => (((x :: l).filter (fun y => key y == s)).map f).sum)) =
        ks.map (fun s => if s = key x
          then f x + ((l.filter (fun y => key y == s)).map f).sum
          else ((l.filter (fun y => key y == s)).map f).sum) := by
      apply List.map_congr_left
      intro s _
      by_cases h : key x = s
      · subst h
        simp [List.filter_cons]
      · have h' : ¬ s = key x := fun hc => h hc.symm
        simp [List.filter_cons, h, h']
    rw [hstep, List.sum_map_ite_eq, List.count_eq_one_of_mem hnd hx, one_nsmul,
      ih ks hnd hcov']
    simp

theorem sector_keys_nodup (pf : List AnnotatedHolding) : (sector_keys pf).Nodup :=
  (List.perm_insertionSort _ _).symm.nodup (List.nodup_dedup _)

theorem mem_sector_keys (pf : List AnnotatedHolding) (a : AnnotatedHolding) (ha : a ∈ pf) :
    a.sector ∈ sector_keys pf := by
  unfold sector_keys
  rw [(List.perm_insertionSort _ _).mem_iff, List.mem_dedup]
  exact List.mem_map.mpr ⟨a, ha, rfl⟩

/-! The claim theorems. -/

/-- C1: for every holding in the annotated output, `cost` equals
`quantity * buy_price`, `market_value` equals `quantity * current_price`
(with `0` substituted when the current price is missing), and `pnl` equals
`market_value - cost`. -/
theorem C1_valuation_identities (live : String → Option ℚ) (hs : List Holding)
    (a : AnnotatedHolding) (ha : a ∈ main_annotate live hs) :
    a.cost = a.quantity * a.buyPrice ∧
    a.market_value = a.quantity * a.current_price.getD 0 ∧
    a.pnl = a.market_value - a.cost := by
  rw [main_annotate_eq] at ha
  obtain ⟨h, -, rfl⟩ := List.mem_map.mp ha
  exact ⟨rfl, rfl, rfl⟩

theorem C1_witness :
    (annotateRow ⟨"EFERT", 100, 90, "Fertilizer"⟩ (some 95)).cost =
        (annotateRow ⟨"EFERT", 100, 90, "Fertilizer"⟩ (some 95)).quantity *
          (annotateRow ⟨"EFERT", 100, 90, "Fertilizer"⟩ (some 95)).buyPrice ∧
    (annotateRow ⟨"EFERT", 100, 90, "Fertilizer"⟩ (some 95)).market_value =
        (annotateRow ⟨"EFERT", 100, 90, "Fertilizer"⟩ (some 95)).quantity *
          (annotateRow ⟨"EFERT", 100, 90, "Fertilizer"⟩ (some 95)).current_price.getD 0 ∧
    (annotateRow ⟨"EFERT", 100, 90, "Fertilizer"⟩ (some 95)).pnl =
        (annotateRow ⟨"EFERT", 100, 90, "Fertilizer"⟩ (some 95)).market_value -
          (annotateRow ⟨"EFERT", 100, 90, "Fertilizer"⟩ (some 95)).cost :=
  C1_valuation_identities (fun _ => some 95) [⟨"EFERT", 100, 90, "Fertilizer"⟩] _
    (List.Mem.head _)

/-- C2: loading raises the validation failure (a hard stop with no holdings
result) if and only if at least one required field (`Symbol`, `Quantity`,
`Buy Price`) is absent from the stripped header strings. -/
theorem C2_required_column_validation (sheet : Sheet) :
    ((∃ e, load_portfolio_from_excel sheet = Except.error e) ↔
      ∃ c ∈ requiredCols, c ∉ sheet.columns.map pyStrip) ∧
    ∀ hs, load_portfolio_from_excel sheet = Except.ok hs →
      ∀ c ∈ requiredCols, c ∈ sheet.columns.map pyStrip := by
  constructor
  · rw [load_error_iff, load_isOk_iff]
    push_neg
    rfl
  · intro hs hok c hc
    refine (load_isOk_iff sheet).mp ?_ c hc
    rw [hok]
    rfl

theorem C2_witness :
    ∃ e, load_portfolio_from_excel ⟨["Symbol", "Buy Price"], []⟩ = Except.error e :=
  (C2_required_column_validation ⟨["Symbol", "Buy Price"], []⟩).1.mpr
    ⟨"Quantity", by decide, by decide⟩

/-- C3: every annotated holding and every sector summary row with zero cost
has `pnl_pct = 0` (never a division error), and with nonzero cost has
`pnl_pct = pnl / cost * 100`. -/
theorem C3_zero_cost_policy (live : String → Option ℚ) (hs : List Holding)
    (pf : List AnnotatedHolding) :
    (∀ a ∈ main_annotate live hs,
      (a.cost = 0 → a.pnl_pct = 0) ∧ (a.cost ≠ 0 → a.pnl_pct = a.pnl / a.cost * 100)) ∧
    (∀ r ∈ compute_sector_summary pf,
      (r.cost = 0 → r.pnl_pct = 0) ∧ (r.cost ≠ 0 → r.pnl_pct = r.pnl / r.cost * 100)) := by
  constructor
  · intro a ha
    rw [main_annotate_eq] at ha
    obtain ⟨h, -, rfl⟩ := List.mem_map.mp ha
    constructor
    · intro h0
      rw [show (annotateRow h (some ((live h.symbol).getD 0))).pnl_pct =
        if (annotateRow h (some ((live h.symbol).getD 0))).cost ≠ 0
        then (annotateRow h (some ((live h.symbol).getD 0))).pnl /
          (annotateRow h (some ((live h.symbol).getD 0))).cost * 100 else 0 from rfl]
      rw [if_neg (not_not_intro h0)]
    · intro h0
      rw [show (annotateRow h (some ((live h.symbol).getD 0))).pnl_pct =
        if (annotateRow h (some ((live h.symbol).getD 0))).cost ≠ 0
        then (annotateRow h (some ((live h.symbol).getD 0))).pnl /
          (annotateRow h (some ((live h.symbol).getD 0))).cost * 100 else 0 from rfl]
      rw [if_pos h0]
  · intro r hr
    obtain ⟨s, -, rfl⟩ := List.mem_map.mp hr
    constructor
    · intro h0
      rw [show (SectorRow.pnl_pct _) =
        if ((sector_group pf s).map AnnotatedHolding.cost).sum ≠ 0
        then ((sector_group pf s).map AnnotatedHolding.pnl).sum /
          ((sector_group pf s).map AnnotatedHolding.cost).sum * 100 else 0 from rfl]
      rw [if_neg (not_not_intro h0)]
    · intro h0
      rw [show (SectorRow.pnl_pct _) =
        if ((sector_group pf s).map AnnotatedHolding.cost).sum ≠ 0
        then ((sector_group pf s).map AnnotatedHolding.pnl).sum /
          ((sector_group pf s).map AnnotatedHolding.cost).sum * 100 else 0 from rfl]
      rw [if_pos h0]

theorem C3_witness :
    (annotateRow ⟨"X", 50, 0, "Power"⟩ (some 10)).cost = 0 ∧
    (annotateRow ⟨"X", 50, 0, "Power"⟩ (some 10)).pnl_pct = 0 :=
  ⟨by simp [annotateRow],
    ((C3_zero_cost_policy (fun _ => some 10) [⟨"X", 50, 0, "Power"⟩] []).1
      _ (List.Mem.head _)).1 (by simp [annotateRow])⟩

/-- C10: the portfolio-level total P/L percentage follows the same zero-cost
policy: `0` when the summed cost is `0`, else `total_pnl / total_cost * 100`. -/
theorem C10_total_pnl_pct_policy (pf : List AnnotatedHolding) :
    (total_cost pf = 0 → total_pnl_pct pf = 0) ∧
    (total_cost pf ≠ 0 → total_pnl_pct pf = total_pnl pf / total_cost pf * 100) := by
  constructor
  · intro h0
    unfold total_pnl_pct
    rw [if_neg (not_not_intro h0)]
  · intro h0
    unfold total_pnl_pct
    rw [if_pos h0]

/-- C4: each sector summary row's `cost`, `market_value` and `pnl` equal the
sums of those fields over exactly the holdings whose sector string equals the
row's sector, and summing each column over all summary rows gives the grand
totals over all holdings. -/
theorem C4_sector_sums (pf : List AnnotatedHolding) :
    (∀ r ∈ compute_sector_summary pf,
      r.cost = ((sector_group pf r.sector).map AnnotatedHolding.cost).sum ∧
      r.market_value = ((sector_group pf r.sector).map AnnotatedHolding.market_value).sum ∧
      r.pnl = ((sector_group pf r.sector).map AnnotatedHolding.pnl).sum) ∧
    ((compute_sector_summary pf).map SectorRow.cost).sum = total_cost pf ∧
    ((compute_sector_summary pf).map SectorRow.market_value).sum = total_value pf ∧
    ((compute_sector_summary pf).map SectorRow.pnl).sum = total_pnl pf := by
  have hnd := sector_keys_nodup pf
  have hcov : ∀ x ∈ pf, x.sector ∈ sector_keys pf := fun x hx => mem_sector_keys pf x hx
  refine ⟨?_, ?_, ?_, ?_⟩
  · intro r hr
    obtain ⟨s, -, rfl⟩ := List.mem_map.mp hr
    exact ⟨rfl, rfl, rfl⟩
  · have hc : (compute_sector_summary pf).map SectorRow.cost =
        (sector_keys pf).map
          (fun s => ((pf.filter (fun x => x.sector == s)).map AnnotatedHolding.cost).sum) := by
      unfold compute_sector_summary
      rw [List.map_map]
      rfl
    rw [hc]
    exact sum_fiberwise AnnotatedHolding.sector AnnotatedHolding.cost pf (sector_keys pf) hnd hcov
  · have hm : (compute_sector_summary pf).map SectorRow.market_value =
        (sector_keys pf).map
          (fun s =>
            ((pf.filter (fun x => x.sector == s)).map AnnotatedHolding.market_value).sum) := by
      unfold compute_sector_summary
      rw [List.map_map]
      rfl
    rw [hm]
    exact sum_fiberwise AnnotatedHolding.sector AnnotatedHolding.market_value pf
      (sector_keys pf) hnd hcov
  · have hp : (compute_sector_summary pf).map SectorRow.pnl =
        (sector_keys pf).map
          (fun s => ((pf.filter (fun x => x.sector == s)).map AnnotatedHolding.pnl).sum) := by
      unfold compute_sector_summary
      rw [List.map_map]
      rfl
    rw [hp]
    exact sum_fiberwise AnnotatedHolding.sector AnnotatedHolding.pnl pf (sector_keys pf) hnd hcov

theorem C4_witness :
    ((compute_sector_summary [annotateRow ⟨"HUBC", 1, 2, "Power"⟩ (some 3)]).map
      SectorRow.cost).sum = total_cost [annotateRow ⟨"HUBC", 1, 2, "Power"⟩ (some 3)] :=
  (C4_sector_sums [annotateRow ⟨"HUBC", 1, 2, "Power"⟩ (some 3)]).2.1

/-- C8: the sector summary's row order is deterministic: the emitted sector
keys are exactly the sorted deduplicated sector strings of the input, in
strictly ascending order of the sector string. -/
theorem C8_summary_order (pf : List AnnotatedHolding) :
    (compute_sector_summary pf).map SectorRow.sector = sector_keys pf ∧
    List.Sorted (· < ·) ((compute_sector_summary pf).map SectorRow.sector) := by
  have hmap : (compute_sector_summary pf).map SectorRow.sector = sector_keys pf := by
    unfold compute_sector_summary
    rw [List.map_map]
    exact List.map_id _
  have hsorted : List.Sorted (· ≤ ·) (sector_keys pf) := List.sorted_insertionSort _ _
  exact ⟨hmap, hmap ▸ hsorted.lt_of_le (sector_keys_nodup pf)⟩

theorem C8_witness :
    (compute_sector_summary [annotateRow ⟨"ENGRO", 4, 5, "Conglomerate"⟩ (some 6)]).map
        SectorRow.sector =
      sector_keys [annotateRow ⟨"ENGRO", 4, 5, "Conglomerate"⟩ (some 6)] ∧
    List.Sorted (· < ·)
      ((compute_sector_summary [annotateRow ⟨"ENGRO", 4, 5, "Conglomerate"⟩ (some 6)]).map
        SectorRow.sector) :=
  C8_summary_order [annotateRow ⟨"ENGRO", 4, 5, "Conglomerate"⟩ (some 6)]

theorem C10_witness :
    total_cost [annotateRow ⟨"Y", 0, 7, "Energy"⟩ (some 3)] = 0 ∧
    total_pnl_pct [annotateRow ⟨"Y", 0, 7, "Energy"⟩ (some 3)] = 0 :=
  ⟨by simp [total_cost, annotateRow],
    (C10_total_pnl_pct_policy _).1 (by simp [total_cost, annotateRow])⟩

/-- C5 counterexample: under the spec's normalization the headers `"symbol"`
and `"Symbol"` are the same logical field, yet the loader rejects the sheet
whose headers are `["symbol", "Quantity", "Buy Price"]` while accepting
`["Symbol", "Quantity", "Buy Price"]`: resolution is not case-insensitive. -/
theorem C5_counterexample :
    spec_normalize "symbol" = spec_normalize "Symbol" ∧
    (load_portfolio_from_excel ⟨["symbol", "Quantity", "Buy Price"], []⟩).isOk = false ∧
    (load_portfolio_from_excel ⟨["Symbol", "Quantity", "Buy Price"], []⟩).isOk = true :=
  ⟨by decide, by decide, by decide⟩

/-- C5 amended: column resolution strips leading and trailing whitespace
from each header and is otherwise an exact, case- and underscore-sensitive
match: loading succeeds exactly when every required canonical name equals
some header after whitespace stripping. -/
theorem C5_amended_resolution (cols : List String) (rows : List RawRow) :
    (load_portfolio_from_excel ⟨cols, rows⟩).isOk = true ↔
      ∀ c ∈ requiredCols, ∃ h ∈ cols, pyStrip h = c := by
  rw [load_isOk_iff]
  simp

theorem C5_amended_witness :
    (load_portfolio_from_excel ⟨["  Symbol  ", "Quantity", "Buy Price"], []⟩).isOk = true :=
  (C5_amended_resolution ["  Symbol  ", "Quantity", "Buy Price"] []).mpr (by decide)

/-- C6 counterexample: for a holding whose live price is missing, the stored
`current_price` of the output record is the numeric `0` put there by the
`fillna(0.0)` of source line 304, not an explicit missing value. -/
theorem C6_counterexample :
    (main_annotate (fun _ => none) [⟨"HUBC", 250, 110, "Power"⟩]).map
        AnnotatedHolding.current_price = [some 0] ∧
    missing_prices (fun _ => none) [⟨"HUBC", 250, 110, "Power"⟩] = ["HUBC"] :=
  ⟨rfl, rfl⟩

/-- C6 amended: when a live price is missing a warning is still signaled
(`missing_prices` is nonempty exactly when some price is absent), but the
`0` substitution happens in the stored record itself: after annotation every
record stores `some (price or 0)`, never a missing marker. -/
theorem C6_amended_stored_price (live : String → Option ℚ) (hs : List Holding) :
    (main_annotate live hs).map AnnotatedHolding.current_price =
        hs.map (fun h => some ((live h.symbol).getD 0)) ∧
    (missing_prices live hs = [] ↔ ∀ h ∈ hs, live h.symbol ≠ none) := by
  refine ⟨?_, missing_prices_nil_iff live hs⟩
  rw [main_annotate_eq, List.map_map]
  rfl

theorem C6_amended_witness :
    (main_annotate (fun _ => none) [⟨"OGDC", 10, 5, "Energy"⟩]).map
        AnnotatedHolding.current_price =
      [(⟨"OGDC", 10, 5, "Energy"⟩ : Holding)].map
        (fun h => some (((fun _ => (none : Option ℚ)) h.symbol).getD 0)) ∧
    (missing_prices (fun _ => none) [⟨"OGDC", 10, 5, "Energy"⟩] = [] ↔
      ∀ h ∈ [(⟨"OGDC", 10, 5, "Energy"⟩ : Holding)],
        (fun _ => (none : Option ℚ)) h.symbol ≠ none) :=
  C6_amended_stored_price (fun _ => none) [⟨"OGDC", 10, 5, "Energy"⟩]

/-- C7: postconditions on every successfully loaded row: the symbol is the
input cell stripped of whitespace and upper-cased; an unparseable quantity
or buy-price cell yields `0`, never a missing value; and when no `Sector`
column resolves the holding's sector is `"Unknown"`. -/
theorem C7_loader_postconditions (sheet : Sheet) (hs : List Holding)
    (hok : load_portfolio_from_excel sheet = Except.ok hs) :
    List.Forall₂ (fun (r : RawRow) (h : Holding) =>
      h.symbol = pyUpper (pyStrip r.symbol) ∧
      h.quantity = r.quantity.getD 0 ∧
      h.buyPrice = r.buyPrice.getD 0 ∧
      ("Sector" ∉ sheet.columns.map pyStrip → h.sector = "Unknown"))
      sheet.rows hs := by
  rw [load_ok_eq sheet hs hok, List.forall₂_map_right_iff, List.forall₂_same]
  intro r hr
  refine ⟨rfl, rfl, rfl, ?_⟩
  intro hnot
  have hfalse : (sheet.columns.map pyStrip).contains "Sector" = false := by
    simpa using hnot
  rw [show (loadRow ((sheet.columns.map pyStrip).contains "Sector") r).sector =
    pyStrip (if (sheet.columns.map pyStrip).contains "Sector" then r.sector
      else "Unknown") from rfl]
  rw [hfalse]
  rfl

theorem C7_witness :
    List.Forall₂ (fun (r : RawRow) (h : Holding) =>
      h.symbol = pyUpper (pyStrip r.symbol) ∧
      h.quantity = r.quantity.getD 0 ∧
      h.buyPrice = r.buyPrice.getD 0 ∧
      ("Sector" ∉ (Sheet.mk ["Symbol", "Quantity", "Buy Price"]
          [⟨" efert ", none, some 90, "ignored"⟩]).columns.map pyStrip →
        h.sector = "Unknown"))
      [⟨" efert ", none, some 90, "ignored"⟩] [⟨"EFERT", 0, 90, "Unknown"⟩] :=
  C7_loader_postconditions
    ⟨["Symbol", "Quantity", "Buy Price"], [⟨" efert ", none, some 90, "ignored"⟩]⟩
    [⟨"EFERT", 0, 90, "Unknown"⟩] rfl

/-- C9: the stored sector is the input sector cell stripped of surrounding
whitespace, so two input rows whose sector cells differ only in surrounding
whitespace produce holdings with the same sector string and hence fall into
the same sector group during aggregation. -/
theorem C9_sector_stripping (sheet : Sheet) (hs : List Holding)
    (hok : load_portfolio_from_excel sheet = Except.ok hs)
    (hsec : "Sector" ∈ sheet.columns.map pyStrip) :
    List.Forall₂ (fun (r : RawRow) (h : Holding) => h.sector = pyStrip r.sector)
      sheet.rows hs ∧
    (∀ (r₁ r₂ : RawRow) (h₁ h₂ : Holding),
      (r₁, h₁) ∈ sheet.rows.zip hs → (r₂, h₂) ∈ sheet.rows.zip hs →
      pyStrip r₁.sector = pyStrip r₂.sector → h₁.sector = h₂.sector) ∧
    (∀ (pf : List AnnotatedHolding) (a b : AnnotatedHolding) (s : String),
      a.sector = b.sector → a ∈ pf → b ∈ pf →
      (a ∈ sector_group pf s ↔ b ∈ sector_group pf s)) := by
  have htrue : (sheet.columns.map pyStrip).contains "Sector" = true := by
    simpa using hsec
  have heq := load_ok_eq sheet hs hok
  rw [htrue] at heq
  have hsector : ∀ r : RawRow, (loadRow true r).sector = pyStrip r.sector := fun r => rfl
  refine ⟨?_, ?_, ?_⟩
  · rw [heq, List.forall₂_map_right_iff, List.forall₂_same]
    intro r hr
    exact hsector r
  · intro r₁ r₂ h₁ h₂ hm₁ hm₂ hstrip
    rw [heq, zip_map_self] at hm₁ hm₂
    obtain ⟨a₁, -, ha₁⟩ := List.mem_map.mp hm₁
    obtain ⟨a₂, -, ha₂⟩ := List.mem_map.mp hm₂
    obtain ⟨rfl, rfl⟩ := Prod.mk.injEq _ _ _ _ ▸ ha₁
    obtain ⟨rfl, rfl⟩ := Prod.mk.injEq _ _ _ _ ▸ ha₂
    rw [hsector, hsector, hstrip]
  · intro pf a b s hab ha hb
    unfold sector_group
    simp only [List.mem_filter, beq_iff_eq, hab, ha, hb, true_and]

theorem C9_witness :
    List.Forall₂ (fun (r : RawRow) (h : Holding) => h.sector = pyStrip r.sector)
      [⟨"A", some 1, some 2, " Tech "⟩, ⟨"B", some 3, some 4, "Tech"⟩]
      [⟨"A", 1, 2, "Tech"⟩, ⟨"B", 3, 4, "Tech"⟩] :=
  (C9_sector_stripping
    ⟨["Symbol", "Quantity", "Buy Price", "Sector"],
     [⟨"A", some 1, some 2, " Tech "⟩, ⟨"B", some 3, some 4, "Tech"⟩]⟩
    [⟨"A", 1, 2, "Tech"⟩, ⟨"B", 3, 4, "Tech"⟩] rfl (by decide)).1

end PSX
